import Mathlib

/-!
Verification development for the payment-to-access pipeline of a
learning-platform backend (Express/Mongoose).  The definitions below are a
shallow embedding of the JavaScript source: the Razorpay route handlers
(order creation and `verify-payment`), the course-access middleware
(`checkCourseAccess`, `checkTopicAccess`, `checkEnrollmentEligibility`),
the `requireRegistrationFee` middleware, and the Mongoose models
(`Payment`, `Enrollment`, `Course`) including the unique index on the
Enrollment `(user, course)` pair.  Dates are modelled as civil date-times
with JavaScript `Date` field-setting semantics (`setFullYear`, `setMonth`,
`setDate`), in which a day-of-month that overflows the target month rolls
forward into the following month.
-/

namespace Pipeline

/-- Gregorian leap-year test, as used by JavaScript `Date`. -/
def isLeap (y : Int) : Bool :=
  (y % 4 == 0 && y % 100 != 0) || y % 400 == 0

/-- Number of days in month `m` (0-based, January = 0) of year `y`. -/
def daysInMonth (y : Int) (m : Nat) : Nat :=
  match m with
  | 0 => 31
  | 1 => if isLeap y then 29 else 28
  | 2 => 31
  | 3 => 30
  | 4 => 31
  | 5 => 30
  | 6 => 31
  | 7 => 31
  | 8 => 30
  | 9 => 31
  | 10 => 30
  | _ => 31

theorem daysInMonth_ge_28 (y : Int) (m : Nat) : 28 ≤ daysInMonth y m := by
  unfold daysInMonth
  rcases m with _ | _ | _ | _ | _ | _ | _ | _ | _ | _ | _ | _ <;> simp <;> split <;> simp

theorem daysInMonth_pos (y : Int) (m : Nat) : 0 < daysInMonth y m :=
  lt_of_lt_of_le (by norm_num) (daysInMonth_ge_28 y m)

theorem daysInMonth_le_31 (y : Int) (m : Nat) : daysInMonth y m ≤ 31 := by
  unfold daysInMonth
  rcases m with _ | _ | _ | _ | _ | _ | _ | _ | _ | _ | _ | _ <;> simp <;> split <;> simp

/-- A civil date-time: year, month (0-based as in JavaScript), day of month
(1-based), and time of day in milliseconds.  Mirrors the observable fields
of a JavaScript `Date`. -/
structure JSDate where
  year : Int
  month : Nat
  day : Nat
  time : Nat
deriving DecidableEq, Repr

/-- One step of day-of-month normalisation per unit of fuel; every step
removes at least 28 days, so `d` units of fuel always suffice and the
fuel pattern only makes the recursion structural. -/
def normDayAux (fuel : Nat) (y : Int) (m : Nat) (d : Nat) (t : Nat) : JSDate :=
  match fuel with
  | 0 => ⟨y, m, d, t⟩
  | fuel + 1 =>
    if d ≤ daysInMonth y m then ⟨y, m, d, t⟩
    else if m = 11 then normDayAux fuel (y + 1) 0 (d - daysInMonth y m) t
    else normDayAux fuel y (m + 1) (d - daysInMonth y m) t

/-- Day-of-month normalisation performed by JavaScript `Date` after a field
set: while the day exceeds the length of the current month, subtract that
length and advance to the next month (rolling the year after December). -/
def normDay (y : Int) (m : Nat) (d : Nat) (t : Nat) : JSDate :=
  normDayAux d y m d t

/-- JavaScript `d.setFullYear(d.getFullYear() + n)`: the year advances and
the (month, day) pair is re-normalised (Feb 29 rolls to Mar 1 in a
non-leap year). -/
def jsAddYears (d : JSDate) (n : Nat) : JSDate :=
  normDay (d.year + n) d.month d.day d.time

/-- JavaScript `d.setMonth(d.getMonth() + n)`: months past December roll
the year, then the day is re-normalised (Jan 31 + 1 month rolls into
March, it is not clamped to Feb 28). -/
def jsAddMonths (d : JSDate) (n : Nat) : JSDate :=
  normDay (d.year + ((d.month + n) / 12 : Nat)) ((d.month + n) % 12) d.day d.time

/-- JavaScript `d.setDate(d.getDate() + n)`: day addition with rolling
normalisation across month and year boundaries. -/
def jsAddDays (d : JSDate) (n : Nat) : JSDate :=
  normDay d.year d.month (d.day + n) d.time

/-- Strict chronological order on civil date-times, i.e. the JavaScript
comparison `a > b` written as `dateLt b a`. -/
def dateLt (a b : JSDate) : Bool :=
  if a.year ≠ b.year then decide (a.year < b.year)
  else if a.month ≠ b.month then decide (a.month < b.month)
  else if a.day ≠ b.day then decide (a.day < b.day)
  else decide (a.time < b.time)

/-- Numeric value of a run of decimal digits, most significant first. -/
def digitsVal (l : List Char) : Nat :=
  l.foldl (fun acc c => acc * 10 + (c.toNat - 48)) 0

/-- Scan for the first run of decimal digits, as `String.match(/\d+/)`
followed by `parseInt`; `none` when the string holds no digit (in the
source, `match` returns `null` and indexing it throws). -/
def firstNumAux : List Char → Option Nat
  | [] => none
  | c :: rest =>
    if c.isDigit then some (digitsVal (c :: rest.takeWhile Char.isDigit))
    else firstNumAux rest

def firstNumber (s : String) : Option Nat :=
  firstNumAux s.toList

/-- Substring test on character lists, as `String.prototype.includes`. -/
def listHasInfix (pat : List Char) : List Char → Bool
  | [] => pat.isEmpty
  | c :: rest => pat.isPrefixOf (c :: rest) || listHasInfix pat rest

def strContains (s pat : String) : Bool :=
  listHasInfix pat.toList s.toList

/-- Expiration-date computation of the `verify-payment` course branch: the
course's `accessDuration` string (defaulted to `"1 year"` when empty, the
JavaScript `||` on a falsy string) is scanned for a unit substring in the
order year, month, day; the first digit run is parsed as the count and
added with JavaScript `Date` field semantics.  When no unit substring
occurs, no branch runs and `expiresAt` stays `new Date()`, the moment of
verification.  `none` models the thrown `TypeError` when a unit matches
but the string holds no digits. -/
def computeExpiresAt (now : JSDate) (accessDuration : String) : Option JSDate :=
  let s := if accessDuration = "" then "1 year" else accessDuration
  if strContains s "year" then (firstNumber s).map (jsAddYears now)
  else if strContains s "month" then (firstNumber s).map (jsAddMonths now)
  else if strContains s "day" then (firstNumber s).map (jsAddDays now)
  else some now

/-- Calendar addition of months as the specification words it: land on the
same day-of-month in the target month, clamped to the month's last valid
day when the target month is shorter.  Stated only to be compared with the
source's `jsAddMonths`. -/
def specClampedAddMonths (d : JSDate) (n : Nat) : JSDate :=
  let y := d.year + ((d.month + n) / 12 : Nat)
  let m := (d.month + n) % 12
  ⟨y, m, min d.day (daysInMonth y m), d.time⟩

inductive PaymentType where
  | registration
  | course
deriving DecidableEq, Repr

inductive PayStatus where
  | pending
  | completed
  | failed
  | refunded
  | cancelled
deriving DecidableEq, Repr

inductive EStatus where
  | active
  | expired
  | cancelled
  | suspended
deriving DecidableEq, Repr

/-- The `Payment` model: owning user (`author_id` string), course `c_id`
(empty for registration payments, where the schema leaves it unset),
amount, type, status and the gateway correlation fields written by
`verify-payment`. -/
structure Payment where
  id : String
  user : String
  course : String
  amount : Int
  currency : String
  paymentType : PaymentType
  status : PayStatus
  orderId : String
  gatewayPaymentId : Option String
  gatewaySignature : Option String
deriving DecidableEq, Repr

/-- The fields of the `User` model the pipeline reads or writes. -/
structure User where
  author_id : String
  role : String
  hasPaidRegistrationFee : Bool
  registrationFeePayment : Option String
deriving DecidableEq, Repr

structure Topic where
  title : String
  isFree : Bool
deriving DecidableEq, Repr

structure CSection where
  title : String
  topics : List Topic
deriving DecidableEq, Repr

/-- The fields of the `Course` model the pipeline reads or writes. -/
structure Course where
  c_id : String
  title : String
  price : Int
  currency : String
  status : String
  accessDuration : String
  sections : List CSection
  enrollmentCount : Int
deriving DecidableEq, Repr

/-- The `Enrollment` model (progress sub-record omitted; no claim reads
it).  `enrolledAt` defaults to the creation moment, as the schema's
`Date.now` default. -/
structure Enrollment where
  user : String
  course : String
  enrolledAt : JSDate
  expiresAt : JSDate
  status : EStatus
  payment : String
deriving DecidableEq, Repr

/-- The persistent state the pipeline touches: the four Mongo collections. -/
structure St where
  users : List User
  courses : List Course
  payments : List Payment
  enrollments : List Enrollment
deriving DecidableEq, Repr

def findPayment (st : St) (pid : String) : Option Payment :=
  st.payments.find? (fun p => p.id == pid)

def findCourse (st : St) (cid : String) : Option Course :=
  st.courses.find? (fun c => c.c_id == cid)

def findUser (st : St) (uid : String) : Option User :=
  st.users.find? (fun u => u.author_id == uid)

/-- `Enrollment.findOne({user, course, status: 'active'})`. -/
def findActiveEnrollment (st : St) (uid cid : String) : Option Enrollment :=
  st.enrollments.find?
    (fun e => e.user == uid && e.course == cid && e.status == EStatus.active)

/-- `Enrollment.findOne({user, course, status: {$in: ['active','expired']}})`. -/
def findLiveEnrollment (st : St) (uid cid : String) : Option Enrollment :=
  st.enrollments.find?
    (fun e => e.user == uid && e.course == cid
      && (e.status == EStatus.active || e.status == EStatus.expired))

/-- Insertion into the Enrollment collection under the unique index on
`{user: 1, course: 1}`: a second record for an existing pair is rejected
with a duplicate-key error (in the source, `enrollment.save()` rejects and
the route's catch block answers 500) instead of being stored. -/
def insertEnrollment (es : List Enrollment) (e : Enrollment) :
    Except Unit (List Enrollment) :=
  if es.any (fun x => x.user == e.user && x.course == e.course) then Except.error ()
  else Except.ok (es ++ [e])

/-- Lines 258-260 of the verify handler: set status `completed` and store
the gateway payment id and signature on the record. -/
def markCompleted (p : Payment) (rpid sig : String) : Payment :=
  { p with status := PayStatus.completed
         , gatewayPaymentId := some rpid
         , gatewaySignature := some sig }

/-- The Enrollment document the course branch constructs: user and course
from the Payment, `enrolledAt` from the schema's `Date.now` default, the
computed expiry, and the schema's `active` status default. -/
def newEnrollment (p : Payment) (now expiresAt : JSDate) : Enrollment :=
  { user := p.user, course := p.course, enrolledAt := now
  , expiresAt := expiresAt, status := EStatus.active, payment := p.id }

def updatePayment (ps : List Payment) (pid : String) (p' : Payment) : List Payment :=
  ps.map (fun q => if q.id == pid then p' else q)

/-- `Course.findByIdAndUpdate(course._id, {$inc: {enrollmentCount: 1}})`. -/
def incEnrollmentCount (cs : List Course) (cid : String) : List Course :=
  cs.map (fun c =>
    if c.c_id == cid then { c with enrollmentCount := c.enrollmentCount + 1 } else c)

/-- The request body of `POST /verify-payment`; an absent field is the
empty string (the handler's falsiness check). -/
structure VerifyInput where
  paymentId : String
  orderId : String
  signature : String
  razorpay_payment_id : String
deriving DecidableEq, Repr

/-- Response outcomes of the verify handler.  `registrationSuccess` is
the 200 response written at lines 274-278 of the source; it is
unreachable because the user update above it always rejects (see
`verify`), but it is kept so the embedding covers every response site of
the handler. -/
inductive VerifyRes where
  | missingData
  | invalidSignature
  | paymentNotFound
  | alreadyProcessed
  | registrationSuccess
  | courseNotFound
  | courseSuccess (expiresAt : JSDate)
  | serverError
deriving DecidableEq, Repr

/-- HTTP status code the handler answers for each outcome. -/
def statusCodeOf : VerifyRes → Nat
  | .missingData => 400
  | .invalidSignature => 400
  | .paymentNotFound => 404
  | .alreadyProcessed => 400
  | .registrationSuccess => 200
  | .courseNotFound => 404
  | .courseSuccess _ => 200
  | .serverError => 500

/-- Whether the JSON body carries `success: true`. -/
def isSuccessRes : VerifyRes → Bool
  | .registrationSuccess => true
  | .courseSuccess _ => true
  | _ => false

/-- State of the store right after line 261 of the verify handler
(`await payment.save()`): the Payment is stored `completed` with the
gateway fields, nothing else has changed yet. -/
def completedSt (st : St) (p : Payment) (rpid sig : String) : St :=
  { st with payments := updatePayment st.payments p.id (markCompleted p rpid sig) }

/-- The `POST /verify-payment` handler.  `hmac` abstracts
`crypto.createHmac('sha256', secret)` over the message
`` `${orderId}|${razorpay_payment_id}` ``; `now` is the clock at the
request.  Returns the response outcome together with the state of the
store when the handler answers.  Lookups after the status save read
fields the save does not touch, so they are written against the
corresponding collections directly.  The registration branch calls
`User.findByIdAndUpdate({ author_id: payment.user }, ...)`, passing a
filter object where the API expects an `_id` value; Mongoose builds
`findOneAndUpdate({ _id: { author_id: ... } }, ...)`, fails to cast the
plain object to an `ObjectId` and rejects with a `CastError`, so the
route's catch block answers 500 with the Payment already saved
`completed` and no user document ever updated — the registration success
response further down the branch is unreachable. -/
def verify (hmac : String → String → String) (secret : String) (now : JSDate)
    (st : St) (inp : VerifyInput) : VerifyRes × St :=
  if inp.paymentId = "" ∨ inp.orderId = "" ∨ inp.signature = "" then
    (.missingData, st)
  else if hmac secret (inp.orderId ++ "|" ++ inp.razorpay_payment_id) ≠ inp.signature then
    (.invalidSignature, st)
  else
    match findPayment st inp.paymentId with
    | none => (.paymentNotFound, st)
    | some p =>
      if p.status = PayStatus.completed then (.alreadyProcessed, st)
      else
        match p.paymentType with
        | PaymentType.registration =>
          (.serverError, completedSt st p inp.razorpay_payment_id inp.signature)
        | PaymentType.course =>
          match findCourse st p.course with
          | none => (.courseNotFound, completedSt st p inp.razorpay_payment_id inp.signature)
          | some c =>
            match computeExpiresAt now c.accessDuration with
            | none => (.serverError, completedSt st p inp.razorpay_payment_id inp.signature)
            | some exp =>
              match insertEnrollment st.enrollments (newEnrollment p now exp) with
              | Except.error _ =>
                (.serverError, completedSt st p inp.razorpay_payment_id inp.signature)
              | Except.ok es =>
                (.courseSuccess exp,
                  { completedSt st p inp.razorpay_payment_id inp.signature with
                      enrollments := es
                    , courses := incEnrollmentCount st.courses c.c_id })

/-- Ambient configuration read from the process environment; `none` means
the variable is unset and the source's `|| 699` / `|| 'INR'` default
applies. -/
structure Config where
  registrationFeeAmount : Option Int
  currency : Option String
deriving Repr

def feeAmount (cfg : Config) : Int :=
  cfg.registrationFeeAmount.getD 699

def currencyOf (cfg : Config) : String :=
  cfg.currency.getD "INR"

inductive CourseAccessRes where
  | unauthenticated
  | notFound
  | notAvailable
  | notEnrolled (title : String) (price : Int)
  | expired (expiredAt : JSDate)
  | admitted (e : Enrollment)
deriving DecidableEq, Repr

/-- The `checkCourseAccess` middleware: authentication, course lookup,
published check, active-enrollment lookup, then the read-time expiry check
`new Date() > enrollment.expiresAt`; on admission the matched Enrollment
is attached to the request. -/
def checkCourseAccess (st : St) (userId : Option String) (courseId : String)
    (now : JSDate) : CourseAccessRes :=
  match userId with
  | none => .unauthenticated
  | some uid =>
    match findCourse st courseId with
    | none => .notFound
    | some c =>
      if c.status ≠ "published" then .notAvailable
      else
        match findActiveEnrollment st uid courseId with
        | none => .notEnrolled c.title c.price
        | some e =>
          if dateLt e.expiresAt now then .expired e.expiresAt else .admitted e

inductive TopicAccessRes where
  | unauthenticated
  | courseNotFound
  | sectionNotFound
  | topicNotFound
  | admitFree (t : Topic)
  | notEnrolled (title : String) (price : Int)
  | expired
  | admitEnrolled (t : Topic) (e : Enrollment)
deriving DecidableEq, Repr

/-- The `checkTopicAccess` middleware: authentication first, then course,
section and topic resolution; a topic whose `isFree` flag is set is
admitted before any enrollment lookup, otherwise the active-enrollment and
expiry checks of the course gate apply. -/
def checkTopicAccess (st : St) (userId : Option String) (courseId : String)
    (sectionIndex topicIndex : Nat) (now : JSDate) : TopicAccessRes :=
  match userId with
  | none => .unauthenticated
  | some uid =>
    match findCourse st courseId with
    | none => .courseNotFound
    | some c =>
      match c.sections[sectionIndex]? with
      | none => .sectionNotFound
      | some sec =>
        match sec.topics[topicIndex]? with
        | none => .topicNotFound
        | some t =>
          if t.isFree then .admitFree t
          else
            match findActiveEnrollment st uid courseId with
            | none => .notEnrolled c.title c.price
            | some e =>
              if dateLt e.expiresAt now then .expired else .admitEnrolled t e

inductive EligRes where
  | unauthenticated
  | feeRequired (amount : Int)
  | alreadyEnrolled
  | notFound
  | notAvailable
  | eligible (c : Course)
deriving DecidableEq, Repr

/-- The `checkEnrollmentEligibility` middleware: the registration-fee gate
`!req.user.hasPaidRegistrationFee && req.user.role === 'student'` answers
402 carrying `REGISTRATION_FEE_AMOUNT || 699`; then the active-or-expired
enrollment check, course lookup and published check. -/
def checkEnrollmentEligibility (cfg : Config) (st : St) (user : Option User)
    (courseId : String) : EligRes :=
  match user with
  | none => .unauthenticated
  | some u =>
    if u.hasPaidRegistrationFee = false ∧ u.role = "student" then
      .feeRequired (feeAmount cfg)
    else
      match findLiveEnrollment st u.author_id courseId with
      | some _ => .alreadyEnrolled
      | none =>
        match findCourse st courseId with
        | none => .notFound
        | some c => if c.status ≠ "published" then .notAvailable else .eligible c

inductive FeeGateRes where
  | unauthenticated
  | pass
  | feeRequired (amount : Int)
deriving DecidableEq, Repr

/-- The `requireRegistrationFee` middleware: `admin` and `beta` roles pass
unconditionally, every other role passes only with the
registration-fee-paid flag set. -/
def requireRegistrationFee (cfg : Config) (user : Option User) : FeeGateRes :=
  match user with
  | none => .unauthenticated
  | some u =>
    if u.role = "admin" ∨ u.role = "beta" then .pass
    else if u.hasPaidRegistrationFee = false then .feeRequired (feeAmount cfg)
    else .pass

inductive RegOrderRes where
  | alreadyPaid
  | created (paymentId : String)
deriving DecidableEq, Repr

/-- `POST /create-registration-order`: rejected when the caller's flag is
already set, otherwise a `pending` registration Payment is persisted with
the configured fee amount.  `newPid` and `orderId` stand for the ids the
store and the gateway mint. -/
def createRegistrationOrder (cfg : Config) (st : St) (u : User)
    (newPid orderId : String) : RegOrderRes × St :=
  if u.hasPaidRegistrationFee then (.alreadyPaid, st)
  else
    (.created newPid,
      { st with payments := st.payments ++
          [{ id := newPid, user := u.author_id, course := ""
           , amount := feeAmount cfg, currency := currencyOf cfg
           , paymentType := PaymentType.registration, status := PayStatus.pending
           , orderId := orderId, gatewayPaymentId := none
           , gatewaySignature := none }] })

inductive CourseOrderRes where
  | missingCourseId
  | courseNotFound
  | notPublished
  | alreadyEnrolled
  | created (paymentId : String)
deriving DecidableEq, Repr

/-- `POST /create-course-order`: course lookup, published check, the
active-or-expired enrollment check, then a `pending` course Payment is
persisted at the course's current price. -/
def createCourseOrder (st : St) (u : User) (courseId : String)
    (newPid orderId : String) : CourseOrderRes × St :=
  if courseId = "" then (.missingCourseId, st)
  else
    match findCourse st courseId with
    | none => (.courseNotFound, st)
    | some c =>
      if c.status ≠ "published" then (.notPublished, st)
      else
        match findLiveEnrollment st u.author_id courseId with
        | some _ => (.alreadyEnrolled, st)
        | none =>
          (.created newPid,
            { st with payments := st.payments ++
                [{ id := newPid, user := u.author_id, course := courseId
                 , amount := c.price
                 , currency := (if c.currency = "" then "INR" else c.currency)
                 , paymentType := PaymentType.course, status := PayStatus.pending
                 , orderId := orderId, gatewayPaymentId := none
                 , gatewaySignature := none }] })

/-- The state-mutating operations of the pipeline (the access-gate checks
are pure and mutate nothing). -/
inductive Op where
  | verifyPayment (inp : VerifyInput) (now : JSDate)
  | regOrder (uid : String) (newPid orderId : String)
  | courseOrder (uid : String) (courseId : String) (newPid orderId : String)

/-- State effect of one pipeline operation (the caller of an order route
is the authenticated user found by `author_id`). -/
def runOp (cfg : Config) (hmac : String → String → String) (secret : String)
    (st : St) : Op → St
  | .verifyPayment inp now => (verify hmac secret now st inp).2
  | .regOrder uid newPid orderId =>
    match findUser st uid with
    | none => st
    | some u => (createRegistrationOrder cfg st u newPid orderId).2
  | .courseOrder uid courseId newPid orderId =>
    match findUser st uid with
    | none => st
    | some u => (createCourseOrder st u courseId newPid orderId).2

def runOps (cfg : Config) (hmac : String → String → String) (secret : String)
    (st : St) : List Op → St
  | [] => st
  | op :: rest => runOps cfg hmac secret (runOp cfg hmac secret st op) rest

/-- At most one Enrollment record per `(user, course)` pair. -/
def EnrollUnique (es : List Enrollment) : Prop :=
  es.Pairwise (fun a b => ¬(a.user = b.user ∧ a.course = b.course))

instance (es : List Enrollment) : Decidable (EnrollUnique es) := by
  unfold EnrollUnique
  infer_instance

/-! Concrete fixtures used by the witness theorems. -/

def wHmac : String → String → String := fun k m => k ++ "#" ++ m

def wNow : JSDate := ⟨2025, 0, 31, 0⟩

def wCfg : Config := ⟨none, none⟩

def wTopicFree : Topic := ⟨"intro", true⟩

def wTopicPaid : Topic := ⟨"deep dive", false⟩

def wCourse : Course :=
  ⟨"c1", "Course One", 500, "INR", "published", "1 month",
    [⟨"s1", [wTopicFree, wTopicPaid]⟩], 0⟩

def wUser : User := ⟨"u1", "student", true, none⟩

def wPending : Payment :=
  ⟨"p1", "u1", "c1", 500, "INR", PaymentType.course, PayStatus.pending,
    "ord1", none, none⟩

def wInp : VerifyInput := ⟨"p1", "ord1", wHmac "sec" "ord1|rp1", "rp1"⟩

def wSt : St := ⟨[wUser], [wCourse], [wPending], []⟩

def wStNoCourse : St := { wSt with courses := [] }

def wOldEnrollment : Enrollment :=
  ⟨"u1", "c1", ⟨2024, 0, 1, 0⟩, ⟨2024, 1, 1, 0⟩, EStatus.expired, "p0"⟩

def wStRenewal : St := { wSt with enrollments := [wOldEnrollment] }

def wRegUser : User := ⟨"u1", "student", false, none⟩

def wRegPending : Payment :=
  ⟨"p2", "u1", "", 699, "INR", PaymentType.registration, PayStatus.pending,
    "ord2", none, none⟩

def wStReg : St := ⟨[wRegUser], [], [wRegPending], []⟩

def wInpReg : VerifyInput := ⟨"p2", "ord2", wHmac "sec" "ord2|rp2", "rp2"⟩

def wActiveEnrollment : Enrollment :=
  ⟨"u1", "c1", wNow, ⟨2025, 2, 3, 0⟩, EStatus.active, "p1"⟩

def wStActive : St := { wSt with enrollments := [wActiveEnrollment] }

def wCourseLifetime : Course := { wCourse with accessDuration := "lifetime" }

def wStLifetime : St := { wSt with courses := [wCourseLifetime] }

/-! Helper lemmas. -/

theorem normDayAux_le (fuel : Nat) {y : Int} {m d t : Nat}
    (h : d ≤ daysInMonth y m) : normDayAux fuel y m d t = ⟨y, m, d, t⟩ := by
  cases fuel with
  | zero => rfl
  | succ k =>
    simp only [normDayAux]
    rw [if_pos h]

theorem normDay_le {y : Int} {m d t : Nat} (h : d ≤ daysInMonth y m) :
    normDay y m d t = ⟨y, m, d, t⟩ :=
  normDayAux_le d h

theorem normDay_roll {y : Int} {m d t : Nat} (h1 : daysInMonth y m < d)
    (h2 : d - daysInMonth y m ≤ 28) :
    normDay y m d t =
      ⟨(if m = 11 then y + 1 else y), (if m = 11 then 0 else m + 1),
        d - daysInMonth y m, t⟩ := by
  obtain ⟨k, hk⟩ : ∃ k, d = k + 1 := ⟨d - 1, by have := daysInMonth_pos y m; omega⟩
  subst hk
  unfold normDay
  simp only [normDayAux]
  rw [if_neg (by omega)]
  by_cases hm : m = 11
  · subst hm
    have h3 := normDayAux_le k (t := t)
      (le_trans h2 (daysInMonth_ge_28 (y + 1) 0))
    simpa using h3
  · have h3 := normDayAux_le k (t := t)
      (le_trans h2 (daysInMonth_ge_28 y (m + 1)))
    simpa [hm] using h3

theorem insertEnrollment_ok_unique {es es' : List Enrollment} {e : Enrollment}
    (h : EnrollUnique es) (hok : insertEnrollment es e = Except.ok es') :
    EnrollUnique es' := by
  unfold insertEnrollment at hok
  split at hok
  · exact Except.noConfusion hok
  · rename_i hany
    injection hok with hok
    subst hok
    unfold EnrollUnique at h ⊢
    rw [List.pairwise_append]
    refine ⟨h, List.pairwise_singleton _ _, ?_⟩
    intro a ha b hb hcon
    simp only [List.mem_singleton] at hb
    subst hb
    have hfa := List.any_eq_false.mp (Bool.of_not_eq_true hany) a ha
    exact hfa (by simp [hcon.1, hcon.2])

theorem insertEnrollment_dup {es : List Enrollment} {e : Enrollment}
    (h : ∃ x ∈ es, x.user = e.user ∧ x.course = e.course) :
    insertEnrollment es e = Except.error () := by
  unfold insertEnrollment
  obtain ⟨x, hx, h1, h2⟩ := h
  rw [if_pos]
  rw [List.any_eq_true]
  exact ⟨x, hx, by simp [h1, h2]⟩

theorem verify_preserves_unique (hmac : String → String → String) (secret : String)
    (now : JSDate) (st : St) (inp : VerifyInput)
    (h : EnrollUnique st.enrollments) :
    EnrollUnique ((verify hmac secret now st inp).2.enrollments) := by
  unfold verify
  repeat' split
  all_goals
    first
      | exact h
      | (rename_i heq; exact insertEnrollment_ok_unique h heq)

theorem runOp_preserves_unique (cfg : Config) (hmac : String → String → String)
    (secret : String) (st : St) (op : Op) (h : EnrollUnique st.enrollments) :
    EnrollUnique ((runOp cfg hmac secret st op).enrollments) := by
  cases op with
  | verifyPayment inp now => exact verify_preserves_unique hmac secret now st inp h
  | regOrder uid newPid orderId =>
    simp only [runOp, createRegistrationOrder]
    repeat' split
    all_goals exact h
  | courseOrder uid courseId newPid orderId =>
    simp only [runOp, createCourseOrder]
    repeat' split
    all_goals exact h

theorem runOps_preserves_unique (cfg : Config) (hmac : String → String → String)
    (secret : String) (st : St) (ops : List Op) (h : EnrollUnique st.enrollments) :
    EnrollUnique ((runOps cfg hmac secret st ops).enrollments) := by
  induction ops generalizing st with
  | nil => exact h
  | cons op rest ih =>
    exact ih _ (runOp_preserves_unique cfg hmac secret st op h)

/-! Claim theorems. -/

/-- C1: for every user and course, at most one Enrollment record exists
per `(user, course)` pair at any time, across any number of
purchase/renewal cycles run through the pipeline's operations; and the
store's unique index makes the insertion of a second record for an
existing pair fail loudly with a duplicate-key error instead of silently
duplicating. -/
theorem enrollment_pair_unique (cfg : Config) (hmac : String → String → String)
    (secret : String) (st : St) (ops : List Op)
    (h : EnrollUnique st.enrollments) :
    EnrollUnique ((runOps cfg hmac secret st ops).enrollments) ∧
    ∀ e : Enrollment,
      (∃ x ∈ st.enrollments, x.user = e.user ∧ x.course = e.course) →
      insertEnrollment st.enrollments e = Except.error () :=
  ⟨runOps_preserves_unique cfg hmac secret st ops h,
    fun _ hdup => insertEnrollment_dup hdup⟩

/-- Witness for C1 at a concrete store and a concrete purchase run. -/
theorem enrollment_pair_unique_witness :
    EnrollUnique wSt.enrollments ∧
    (EnrollUnique ((runOps wCfg wHmac "sec" wSt [Op.verifyPayment wInp wNow]).enrollments) ∧
      ∀ e : Enrollment,
        (∃ x ∈ wSt.enrollments, x.user = e.user ∧ x.course = e.course) →
        insertEnrollment wSt.enrollments e = Except.error ()) :=
  ⟨by decide, enrollment_pair_unique wCfg wHmac "sec" wSt [Op.verifyPayment wInp wNow] (by decide)⟩

theorem find?_updatePayment {ps : List Payment} {p p' : Payment} {pid : String}
    (hfind : ps.find? (fun q => q.id == pid) = some p) (hid : p'.id = pid) :
    (updatePayment ps pid p').find? (fun q => q.id == pid) = some p' := by
  induction ps with
  | nil => simp at hfind
  | cons q rest ih =>
    by_cases hq : q.id = pid
    · simp [updatePayment, List.find?_cons, hq, hid]
    · rw [List.find?_cons_of_neg _ (by simp [hq])] at hfind
      simp only [updatePayment, List.map_cons]
      rw [if_neg (by simp [hq])]
      rw [List.find?_cons_of_neg _ (by simp [hq])]
      exact ih hfind

theorem verify_on_completed (hmac : String → String → String) (secret : String)
    (now' : JSDate) (st' : St) (inp : VerifyInput) (p' : Payment)
    (hm : ¬(inp.paymentId = "" ∨ inp.orderId = "" ∨ inp.signature = ""))
    (hs : hmac secret (inp.orderId ++ "|" ++ inp.razorpay_payment_id) = inp.signature)
    (hf : findPayment st' inp.paymentId = some p')
    (hc : p'.status = PayStatus.completed) :
    verify hmac secret now' st' inp = (.alreadyProcessed, st') := by
  unfold verify
  rw [if_neg hm, if_neg (by simp [hs]), hf]
  simp [hc]

theorem verify_success_payments (hmac : String → String → String) (secret : String)
    (now : JSDate) (st st1 : St) (inp : VerifyInput) (r : VerifyRes)
    (hrun : verify hmac secret now st inp = (r, st1)) (hsucc : isSuccessRes r = true) :
    ∃ p : Payment,
      findPayment st inp.paymentId = some p ∧
      ¬p.status = PayStatus.completed ∧
      st1.payments = updatePayment st.payments p.id
        (markCompleted p inp.razorpay_payment_id inp.signature) ∧
      ¬(inp.paymentId = "" ∨ inp.orderId = "" ∨ inp.signature = "") ∧
      hmac secret (inp.orderId ++ "|" ++ inp.razorpay_payment_id) = inp.signature := by
  unfold verify at hrun
  split at hrun
  · injection hrun with h1 h2; subst h1; simp [isSuccessRes] at hsucc
  · rename_i hmiss
    split at hrun
    · injection hrun with h1 h2; subst h1; simp [isSuccessRes] at hsucc
    · rename_i hsigne
      have hsig := not_not.mp hsigne
      split at hrun
      · injection hrun with h1 h2; subst h1; simp [isSuccessRes] at hsucc
      · rename_i p heqf
        split at hrun
        · injection hrun with h1 h2; subst h1; simp [isSuccessRes] at hsucc
        · rename_i hncomp
          split at hrun
          · injection hrun with h1 h2; subst h1; simp [isSuccessRes] at hsucc
          · split at hrun
            · injection hrun with h1 h2; subst h1; simp [isSuccessRes] at hsucc
            · rename_i c heqc
              split at hrun
              · injection hrun with h1 h2; subst h1; simp [isSuccessRes] at hsucc
              · rename_i exp heqe
                split at hrun
                · injection hrun with h1 h2; subst h1; simp [isSuccessRes] at hsucc
                · rename_i es heqi
                  injection hrun with h1 h2
                  subst h2
                  exact ⟨p, heqf, hncomp, rfl, hmiss, hsig⟩

/-- C2 (amended): re-invoking `verify` after a successful verification of
the same Payment is rejected with `AlreadyProcessed` — an HTTP 400,
`success: false` answer, not a no-op success — and re-runs no side
effects: the store is exactly unchanged, so the status is written
`completed` only once, the course enrollment counter is not incremented a
second time, and no duplicate Enrollment is created. -/
theorem verify_second_call_already_processed (hmac : String → String → String)
    (secret : String) (now now' : JSDate) (st st1 : St) (inp : VerifyInput)
    (r : VerifyRes) (hrun : verify hmac secret now st inp = (r, st1))
    (hsucc : isSuccessRes r = true) :
    verify hmac secret now' st1 inp = (VerifyRes.alreadyProcessed, st1) ∧
    statusCodeOf VerifyRes.alreadyProcessed = 400 ∧
    isSuccessRes VerifyRes.alreadyProcessed = false := by
  refine ⟨?_, rfl, rfl⟩
  obtain ⟨p, hfp, hnc, hpay, hmiss, hsig⟩ :=
    verify_success_payments hmac secret now st st1 inp r hrun hsucc
  have hpid : p.id = inp.paymentId := by
    simpa using List.find?_some hfp
  have hfind' : findPayment st1 inp.paymentId
      = some (markCompleted p inp.razorpay_payment_id inp.signature) := by
    unfold findPayment
    rw [hpay, hpid]
    exact find?_updatePayment hfp hpid
  exact verify_on_completed hmac secret now' st1 inp _ hmiss hsig hfind' rfl

/-- C2 counterexample: at a concrete store holding a Payment already
`completed`, a verify call with valid inputs answers `AlreadyProcessed`
as an HTTP 400 `success: false` error, so the retry is not a no-op
success for the caller as the claim states. -/
theorem verify_retry_not_success_counterexample :
    verify wHmac "sec" wNow
        { wSt with payments := [{ wPending with status := PayStatus.completed }] } wInp
      = (VerifyRes.alreadyProcessed,
          { wSt with payments := [{ wPending with status := PayStatus.completed }] }) ∧
    isSuccessRes VerifyRes.alreadyProcessed = false ∧
    statusCodeOf VerifyRes.alreadyProcessed = 400 := by
  refine ⟨by decide, rfl, rfl⟩

/-- Witness for C2 at a concrete course purchase verified twice. -/
theorem verify_second_call_already_processed_witness :
    verify wHmac "sec" wNow (verify wHmac "sec" wNow wSt wInp).2 wInp
      = (VerifyRes.alreadyProcessed, (verify wHmac "sec" wNow wSt wInp).2) ∧
    statusCodeOf VerifyRes.alreadyProcessed = 400 ∧
    isSuccessRes VerifyRes.alreadyProcessed = false :=
  verify_second_call_already_processed wHmac "sec" wNow wNow wSt
    (verify wHmac "sec" wNow wSt wInp).2 wInp
    (verify wHmac "sec" wNow wSt wInp).1 rfl (by decide)

/-- C3: at a concrete store holding a pending course Payment whose course
is absent, a verify call with a valid signature answers `CourseNotFound`
yet leaves the Payment stored as `completed` with no Enrollment created —
the status write and the side effect are not one logical transaction, the
status save at line 261 precedes the course lookup and is never rolled
back. -/
theorem verify_not_transactional :
    (verify wHmac "sec" wNow wStNoCourse wInp).1 = VerifyRes.courseNotFound ∧
    statusCodeOf VerifyRes.courseNotFound = 404 ∧
    (verify wHmac "sec" wNow wStNoCourse wInp).2.payments.map Payment.status
      = [PayStatus.completed] ∧
    (verify wHmac "sec" wNow wStNoCourse wInp).2.enrollments = [] := by
  refine ⟨by decide, rfl, by decide, by decide⟩

/-- C5: at a concrete store where an `expired` Enrollment already exists
for the `(user, course)` pair, verifying a fresh completed course Payment
does not renew the record in place: the handler attempts a second insert,
the unique index rejects it, and the caller gets a 500 while the old
Enrollment keeps its old payment reference, dates and `expired` status,
the Payment stays `completed`, and the course counter is not
incremented. -/
theorem verify_renewal_fails_duplicate_key :
    (verify wHmac "sec" wNow wStRenewal wInp).1 = VerifyRes.serverError ∧
    statusCodeOf VerifyRes.serverError = 500 ∧
    (verify wHmac "sec" wNow wStRenewal wInp).2.enrollments = [wOldEnrollment] ∧
    (verify wHmac "sec" wNow wStRenewal wInp).2.payments.map Payment.status
      = [PayStatus.completed] ∧
    (verify wHmac "sec" wNow wStRenewal wInp).2.courses.map Course.enrollmentCount
      = [0] := by
  refine ⟨by decide, rfl, by decide, by decide, by decide⟩

/-- C4: at a concrete not-yet-completed registration Payment verified
with a valid signature, the handler answers 500 — the
`User.findByIdAndUpdate({ author_id: ... }, ...)` call rejects with a
`CastError` — the owning user's registration-fee flag stays false with no
Payment linked, while the Payment itself is left `completed`; and no
pipeline operation ever changes any user document, so the registration
gate is never cleared by this path (or any other). -/
theorem registration_verify_never_clears_gate :
    (verify wHmac "sec" wNow wStReg wInpReg).1 = VerifyRes.serverError ∧
    statusCodeOf VerifyRes.serverError = 500 ∧
    (verify wHmac "sec" wNow wStReg wInpReg).2.users = [wRegUser] ∧
    wRegUser.hasPaidRegistrationFee = false ∧
    wRegUser.registrationFeePayment = none ∧
    (verify wHmac "sec" wNow wStReg wInpReg).2.payments.map Payment.status
      = [PayStatus.completed] ∧
    ∀ (cfg : Config) (hmac : String → String → String) (secret : String)
      (st : St) (op : Op), (runOp cfg hmac secret st op).users = st.users := by
  refine ⟨by decide, rfl, by decide, rfl, rfl, by decide, ?_⟩
  intro cfg hmac secret st op
  cases op with
  | verifyPayment inp now =>
    simp only [runOp]
    unfold verify
    repeat' split
    all_goals rfl
  | regOrder uid newPid orderId =>
    simp only [runOp, createRegistrationOrder]
    repeat' split
    all_goals rfl
  | courseOrder uid courseId newPid orderId =>
    simp only [runOp, createCourseOrder]
    repeat' split
    all_goals rfl

/-- C6 counterexample: at a concrete course whose topic `(0, 0)` has
`isFree = true` (the authenticated call admits it), the unauthenticated
call is answered `Unauthenticated` — the 401 check at the top of
`checkTopicAccess` runs before the free-topic check, so a free topic does
require authentication, contrary to the claim. -/
theorem free_topic_unauthenticated_counterexample :
    checkTopicAccess wSt (some "u1") "c1" 0 0 wNow
      = TopicAccessRes.admitFree wTopicFree ∧
    checkTopicAccess wSt none "c1" 0 0 wNow = TopicAccessRes.unauthenticated ∧
    TopicAccessRes.unauthenticated ≠ TopicAccessRes.admitFree wTopicFree := by
  refine ⟨by decide, by decide, by decide⟩

/-- C6 (amended): for every authenticated caller, a topic whose `isFree`
flag is set is admitted regardless of Enrollment state — the decision is
the same for every enrollment collection, so no Enrollment check is
involved; an unauthenticated caller, however, is denied `Unauthenticated`
before the topic is even resolved. -/
theorem free_topic_admits_any_enrollment_state (st : St) (uid courseId : String)
    (si ti : Nat) (now : JSDate) (c : Course) (sec : CSection) (t : Topic)
    (hc : findCourse st courseId = some c)
    (hs : c.sections[si]? = some sec)
    (ht : sec.topics[ti]? = some t)
    (hfree : t.isFree = true) :
    (∀ es : List Enrollment,
      checkTopicAccess { st with enrollments := es } (some uid) courseId si ti now
        = TopicAccessRes.admitFree t) ∧
    (∀ es : List Enrollment,
      checkTopicAccess { st with enrollments := es } none courseId si ti now
        = TopicAccessRes.unauthenticated) := by
  constructor
  · intro es
    unfold checkTopicAccess
    have hc' : findCourse { st with enrollments := es } courseId = some c := hc
    rw [hc']
    dsimp only
    rw [hs]
    dsimp only
    rw [ht]
    dsimp only
    rw [if_pos hfree]
  · intro es
    rfl

/-- Witness for C6 (amended) at the concrete fixture course. -/
theorem free_topic_admits_any_enrollment_state_witness :
    checkTopicAccess { wSt with enrollments := [wOldEnrollment] } (some "u1") "c1" 0 0 wNow
      = TopicAccessRes.admitFree wTopicFree ∧
    checkTopicAccess { wSt with enrollments := [wOldEnrollment] } none "c1" 0 0 wNow
      = TopicAccessRes.unauthenticated :=
  ⟨(free_topic_admits_any_enrollment_state wSt "u1" "c1" 0 0 wNow wCourse
      ⟨"s1", [wTopicFree, wTopicPaid]⟩ wTopicFree
      (by decide) (by decide) (by decide) (by decide)).1 [wOldEnrollment],
   (free_topic_admits_any_enrollment_state wSt "u1" "c1" 0 0 wNow wCourse
      ⟨"s1", [wTopicFree, wTopicPaid]⟩ wTopicFree
      (by decide) (by decide) (by decide) (by decide)).2 [wOldEnrollment]⟩

/-- C7: when an authenticated user has an Enrollment matched as `active`
for a published course, `checkCourseAccess` answers `Expired` whenever
`now` is strictly past the Enrollment's `expiresAt` — a pure read-time
check, the matched record's stored status is still `active` and the
function performs no write — and otherwise admits, exposing the matched
Enrollment to the caller. -/
theorem course_access_read_time_expiry (st : St) (uid courseId : String)
    (now : JSDate) (c : Course) (e : Enrollment)
    (hc : findCourse st courseId = some c)
    (hpub : c.status = "published")
    (he : findActiveEnrollment st uid courseId = some e) :
    e.status = EStatus.active ∧
    (dateLt e.expiresAt now = true →
      checkCourseAccess st (some uid) courseId now = CourseAccessRes.expired e.expiresAt) ∧
    (dateLt e.expiresAt now = false →
      checkCourseAccess st (some uid) courseId now = CourseAccessRes.admitted e) := by
  refine ⟨?_, ?_, ?_⟩
  · have hp := List.find?_some he
    simp only [Bool.and_eq_true, beq_iff_eq] at hp
    exact hp.2
  · intro hlt
    unfold checkCourseAccess
    rw [hc]
    dsimp only
    rw [if_neg (by simp [hpub])]
    rw [he]
    dsimp only
    rw [if_pos hlt]
  · intro hge
    unfold checkCourseAccess
    rw [hc]
    dsimp only
    rw [if_neg (by simp [hpub])]
    rw [he]
    dsimp only
    rw [if_neg (by simp [hge])]

/-- Witness for C7: the fixture Enrollment is admitted the month before
its expiry instant and denied `Expired` the month after, with no write in
between. -/
theorem course_access_read_time_expiry_witness :
    checkCourseAccess wStActive (some "u1") "c1" ⟨2025, 3, 1, 0⟩
      = CourseAccessRes.expired ⟨2025, 2, 3, 0⟩ ∧
    checkCourseAccess wStActive (some "u1") "c1" ⟨2025, 1, 1, 0⟩
      = CourseAccessRes.admitted wActiveEnrollment :=
  ⟨(course_access_read_time_expiry wStActive "u1" "c1" ⟨2025, 3, 1, 0⟩ wCourse
      wActiveEnrollment (by decide) (by decide) (by decide)).2.1 (by decide),
   (course_access_read_time_expiry wStActive "u1" "c1" ⟨2025, 1, 1, 0⟩ wCourse
      wActiveEnrollment (by decide) (by decide) (by decide)).2.2 (by decide)⟩

/-- C8 counterexample: for an enrollment moment of 2025-01-31 and the
duration string `"1 month"`, the code computes 2025-03-03 (JavaScript
`setMonth` rolls the day-of-month overflow into March), while the claim's
clamped calendar arithmetic lands on 2025-02-28; the two differ. -/
theorem expiry_month_clamping_counterexample :
    computeExpiresAt ⟨2025, 0, 31, 0⟩ "1 month" = some ⟨2025, 2, 3, 0⟩ ∧
    specClampedAddMonths ⟨2025, 0, 31, 0⟩ 1 = ⟨2025, 1, 28, 0⟩ ∧
    (⟨2025, 2, 3, 0⟩ : JSDate) ≠ ⟨2025, 1, 28, 0⟩ := by
  refine ⟨by decide, by decide, by decide⟩

/-- C8 (amended): `expiresAt` is computed by parsing the course's
access-duration string — the unit substring is searched in the order
year, month, day, and the first run of digits is the count — and adding
the count with JavaScript `Date` field-set semantics: for month addition
the result lands on the same day-of-month exactly when the target month
has that day, and otherwise rolls forward into the following month by the
excess days instead of clamping to the month's last valid day. -/
theorem expiry_duration_js_semantics (d : JSDate) (dur : String) (n : Nat)
    (hday : d.day ≤ daysInMonth d.year d.month)
    (hy : strContains dur "year" = false)
    (hmo : strContains dur "month" = true)
    (hn : firstNumber dur = some n) :
    computeExpiresAt d dur = some (jsAddMonths d n) ∧
    (d.day ≤ daysInMonth (d.year + ((d.month + n) / 12 : Nat)) ((d.month + n) % 12) →
      jsAddMonths d n =
        ⟨d.year + ((d.month + n) / 12 : Nat), (d.month + n) % 12, d.day, d.time⟩) ∧
    (daysInMonth (d.year + ((d.month + n) / 12 : Nat)) ((d.month + n) % 12) < d.day →
      jsAddMonths d n =
        ⟨(if (d.month + n) % 12 = 11 then d.year + ((d.month + n) / 12 : Nat) + 1
          else d.year + ((d.month + n) / 12 : Nat)),
         (if (d.month + n) % 12 = 11 then 0 else (d.month + n) % 12 + 1),
         d.day - daysInMonth (d.year + ((d.month + n) / 12 : Nat)) ((d.month + n) % 12),
         d.time⟩) := by
  have hne : dur ≠ "" := by
    intro h
    rw [h] at hmo
    exact absurd hmo (by decide)
  refine ⟨?_, ?_, ?_⟩
  · simp [computeExpiresAt, hne, hy, hmo, hn]
  · intro hfit
    exact normDay_le hfit
  · intro hover
    have hd31 : d.day ≤ 31 := le_trans hday (daysInMonth_le_31 _ _)
    have h28 := daysInMonth_ge_28 (d.year + ((d.month + n) / 12 : Nat)) ((d.month + n) % 12)
    exact normDay_roll hover (by omega)

/-- Witness for C8 (amended): Jan 31 2025 plus `"1 month"` overflows
February and rolls to Mar 3 2025. -/
theorem expiry_duration_js_semantics_witness :
    computeExpiresAt ⟨2025, 0, 31, 0⟩ "1 month" = some (jsAddMonths ⟨2025, 0, 31, 0⟩ 1) ∧
    jsAddMonths ⟨2025, 0, 31, 0⟩ 1 = ⟨2025, 2, 3, 0⟩ :=
  ⟨(expiry_duration_js_semantics ⟨2025, 0, 31, 0⟩ "1 month" 1
      (by decide) (by decide) (by decide) (by decide)).1, by decide⟩

/-- C9: for every authenticated user, `checkEnrollmentEligibility`
answers `RegistrationFeeRequired` carrying the configured fee amount
(699 when the environment variable is unset) exactly when the user's role
is the default paid-tier role `student` and the registration-fee flag is
false; any other role skips this check entirely even with the flag
false. -/
theorem eligibility_fee_gate (cfg : Config) (st : St) (u : User) (courseId : String) :
    (u.hasPaidRegistrationFee = false ∧ u.role = "student" →
      checkEnrollmentEligibility cfg st (some u) courseId
        = EligRes.feeRequired (feeAmount cfg)) ∧
    (∀ a : Int, checkEnrollmentEligibility cfg st (some u) courseId = EligRes.feeRequired a →
      u.hasPaidRegistrationFee = false ∧ u.role = "student" ∧ a = feeAmount cfg) ∧
    (cfg.registrationFeeAmount = none → feeAmount cfg = 699) := by
  refine ⟨?_, ?_, ?_⟩
  · intro hcond
    unfold checkEnrollmentEligibility
    dsimp only
    rw [if_pos hcond]
  · intro a ha
    unfold checkEnrollmentEligibility at ha
    dsimp only at ha
    by_cases hcond : u.hasPaidRegistrationFee = false ∧ u.role = "student"
    · rw [if_pos hcond] at ha
      injection ha with h
      exact ⟨hcond.1, hcond.2, h.symm⟩
    · rw [if_neg hcond] at ha
      exfalso
      cases hl : findLiveEnrollment st u.author_id courseId with
      | some e => simp [hl] at ha
      | none =>
        cases hc : findCourse st courseId with
        | none => simp [hl, hc] at ha
        | some c =>
          by_cases hpub : c.status ≠ "published"
          · simp [hl, hc, hpub] at ha
          · simp [hl, hc, hpub] at ha
  · intro h
    simp [feeAmount, h]

/-- Witness for C9: the fixture paid-tier user with the flag false is
denied with amount 699 under a configuration with the fee unset. -/
theorem eligibility_fee_gate_witness :
    checkEnrollmentEligibility wCfg wSt (some wRegUser) "c1" = EligRes.feeRequired 699 :=
  (eligibility_fee_gate wCfg wSt wRegUser "c1").1 ⟨rfl, rfl⟩

theorem find?_incEnrollmentCount (cs : List Course) (cid q : String) :
    (incEnrollmentCount cs cid).find? (fun c => c.c_id == q)
      = (cs.find? (fun c => c.c_id == q)).map
          (fun c => if c.c_id == cid then
            { c with enrollmentCount := c.enrollmentCount + 1 } else c) := by
  unfold incEnrollmentCount
  rw [List.find?_map]
  have hpres : ((fun c : Course => c.c_id == q) ∘ fun c : Course =>
      if c.c_id == cid then { c with enrollmentCount := c.enrollmentCount + 1 } else c)
      = fun c : Course => c.c_id == q := by
    funext c
    simp only [Function.comp]
    by_cases h : c.c_id = cid
    · rw [if_pos (by simp [h])]
    · rw [if_neg (by simp [h])]
  rw [hpres]

/-- C10: when a course's access-duration string is non-empty but holds
none of the substrings `year`, `month`, `day`, verifying a completed
course Payment still succeeds and creates the Enrollment, with
`expiresAt` equal to the verification moment itself; consequently every
course-access check at any strictly later instant denies the enrollment
as `Expired`. -/
theorem no_unit_duration_expires_immediately (hmac : String → String → String)
    (secret : String) (now : JSDate) (st : St) (inp : VerifyInput)
    (p : Payment) (c : Course)
    (hm : ¬(inp.paymentId = "" ∨ inp.orderId = "" ∨ inp.signature = ""))
    (hsig : hmac secret (inp.orderId ++ "|" ++ inp.razorpay_payment_id) = inp.signature)
    (hfind : findPayment st inp.paymentId = some p)
    (hnc : ¬p.status = PayStatus.completed)
    (hty : p.paymentType = PaymentType.course)
    (hc : findCourse st p.course = some c)
    (hs0 : c.accessDuration ≠ "")
    (hy : strContains c.accessDuration "year" = false)
    (hmo : strContains c.accessDuration "month" = false)
    (hd : strContains c.accessDuration "day" = false)
    (hpub : c.status = "published")
    (hnodup : ∀ x ∈ st.enrollments, ¬(x.user = p.user ∧ x.course = p.course)) :
    (verify hmac secret now st inp).1 = VerifyRes.courseSuccess now ∧
    (∃ e ∈ (verify hmac secret now st inp).2.enrollments,
      e.user = p.user ∧ e.course = p.course ∧ e.expiresAt = now) ∧
    ∀ t' : JSDate, dateLt now t' = true →
      checkCourseAccess (verify hmac secret now st inp).2 (some p.user) p.course t'
        = CourseAccessRes.expired now := by
  have hexp : computeExpiresAt now c.accessDuration = some now := by
    simp [computeExpiresAt, hs0, hy, hmo, hd]
  have hins : insertEnrollment st.enrollments (newEnrollment p now now)
      = Except.ok (st.enrollments ++ [newEnrollment p now now]) := by
    unfold insertEnrollment
    rw [if_neg ?hcond]
    case hcond =>
      intro hany
      rw [List.any_eq_true] at hany
      obtain ⟨x, hx, hfx⟩ := hany
      simp only [Bool.and_eq_true, beq_iff_eq] at hfx
      exact hnodup x hx ⟨hfx.1, hfx.2⟩
  have hverify : verify hmac secret now st inp =
      (VerifyRes.courseSuccess now,
        { completedSt st p inp.razorpay_payment_id inp.signature with
            enrollments := st.enrollments ++ [newEnrollment p now now]
          , courses := incEnrollmentCount st.courses c.c_id }) := by
    unfold verify
    rw [if_neg hm, if_neg (by simp [hsig]), hfind]
    dsimp only
    rw [if_neg hnc, hty]
    dsimp only
    rw [hc]
    dsimp only
    rw [hexp]
    dsimp only
    rw [hins]
  have hcid : c.c_id = p.course := by
    simpa using List.find?_some hc
  refine ⟨?_, ?_, ?_⟩
  · rw [hverify]
  · rw [hverify]
    refine ⟨(newEnrollment p now now : Enrollment), ?_, rfl, rfl, rfl⟩
    simp
  · intro t' hlt
    rw [hverify]
    unfold checkCourseAccess
    dsimp only
    have hfc : (incEnrollmentCount st.courses c.c_id).find? (fun x => x.c_id == p.course)
        = some { c with enrollmentCount := c.enrollmentCount + 1 } := by
      rw [find?_incEnrollmentCount]
      rw [show st.courses.find? (fun x => x.c_id == p.course) = some c from hc]
      simp only [Option.map_some']
      rw [if_pos (by simp)]
    rw [show findCourse
        { completedSt st p inp.razorpay_payment_id inp.signature with
            enrollments := st.enrollments ++ [newEnrollment p now now]
          , courses := incEnrollmentCount st.courses c.c_id } p.course
        = some { c with enrollmentCount := c.enrollmentCount + 1 } from hfc]
    dsimp only
    rw [if_neg (by simp [hpub])]
    have hfe : (st.enrollments ++ [newEnrollment p now now]).find?
        (fun e : Enrollment => e.user == p.user && e.course == p.course && e.status == EStatus.active)
        = some (newEnrollment p now now) := by
      rw [List.find?_append]
      have h1 : st.enrollments.find?
          (fun e : Enrollment => e.user == p.user && e.course == p.course && e.status == EStatus.active)
          = none := by
        rw [List.find?_eq_none]
        intro x hx hpx
        simp only [Bool.and_eq_true, beq_iff_eq] at hpx
        exact hnodup x hx ⟨hpx.1.1, hpx.1.2⟩
      rw [h1]
      simp [List.find?_cons, newEnrollment]
    rw [show findActiveEnrollment
        { completedSt st p inp.razorpay_payment_id inp.signature with
            enrollments := st.enrollments ++ [newEnrollment p now now]
          , courses := incEnrollmentCount st.courses c.c_id } p.user p.course
        = some (newEnrollment p now now) from hfe]
    dsimp only [newEnrollment]
    rw [if_pos hlt]

/-- Witness for C10: a course whose access duration reads `"lifetime"`
enrolls with `expiresAt` equal to the verification instant and is denied
as expired one second later. -/
theorem no_unit_duration_expires_immediately_witness :
    (verify wHmac "sec" wNow wStLifetime wInp).1 = VerifyRes.courseSuccess wNow ∧
    (∃ e ∈ (verify wHmac "sec" wNow wStLifetime wInp).2.enrollments,
      e.user = wPending.user ∧ e.course = wPending.course ∧ e.expiresAt = wNow) ∧
    ∀ t' : JSDate, dateLt wNow t' = true →
      checkCourseAccess (verify wHmac "sec" wNow wStLifetime wInp).2
        (some wPending.user) wPending.course t' = CourseAccessRes.expired wNow :=
  no_unit_duration_expires_immediately wHmac "sec" wNow wStLifetime wInp wPending
    wCourseLifetime (by decide) (by decide) (by decide) (by decide) (by decide)
    (by decide) (by decide) (by decide) (by decide) (by decide) (by decide)
    (by decide)

end Pipeline
